import Mathlib

/-!
Verification development for the QA Coaching Agent (src/app.py).

The program builds a prompt from a fixed instruction block plus the user
transcript, calls a text-generation model, extracts a JSON object from the
raw completion with the regex search for the pattern open-brace dot-star
close-brace in DOTALL mode, parses it, validates its top-level shape, and
returns the parsed object.  The outbound model call is external
nondeterminism, so the response-processing pipeline is embedded here as a
function of the raw completion text.  Strings are modelled as `List Char`.
-/

/-- JSON values, as produced by Python's `json.loads`: objects are modelled
as association lists in insertion order (Python dicts preserve insertion
order; duplicate keys keep the first position and the last value, see
`dictInsert`). -/
inductive JValue where
  | jnull : JValue
  | jbool : Bool → JValue
  | jnum : Int → JValue
  | jstr : List Char → JValue
  | jarr : List JValue → JValue
  | jobj : List (List Char × JValue) → JValue

/-- JSON whitespace skipping (space, tab, newline, carriage return), as in
Python's json scanner. -/
def skipWs : List Char → List Char
  | [] => []
  | c :: rest => if c = ' ' ∨ c = '\t' ∨ c = '\n' ∨ c = '\r' then skipWs rest else c :: rest

/-- Single-character JSON string escapes.  The \u escape is not modelled:
no input relevant to this application uses it. -/
def escChar (e : Char) : Option Char :=
  if e = '"' then some '"'
  else if e = '\\' then some '\\'
  else if e = '/' then some '/'
  else if e = 'b' then some (Char.ofNat 8)
  else if e = 'f' then some (Char.ofNat 12)
  else if e = 'n' then some '\n'
  else if e = 'r' then some '\r'
  else if e = 't' then some '\t'
  else none

/-- Body of a JSON string literal, after the opening quote: returns the
decoded characters and the remainder after the closing quote.  Control
characters below 0x20 are rejected, as in Python's strict mode. -/
def parseStringBody : List Char → Option (List Char × List Char)
  | [] => none
  | c :: rest =>
    if c = '"' then some ([], rest)
    else if c = '\\' then
      match rest with
      | e :: rest2 =>
        match escChar e with
        | some d =>
          match parseStringBody rest2 with
          | some (t, r) => some (d :: t, r)
          | none => none
        | none => none
      | [] => none
    else if c.toNat < 32 then none
    else
      match parseStringBody rest with
      | some (t, r) => some (c :: t, r)
      | none => none

/-- Leading run of decimal digits. -/
def spanDigits : List Char → List Char × List Char
  | [] => ([], [])
  | c :: rest =>
    if c.isDigit then
      match spanDigits rest with
      | (ds, r) => (c :: ds, r)
    else ([], c :: rest)

/-- Numeric value of a digit string. -/
def digitsVal (ds : List Char) : Nat :=
  ds.foldl (fun a c => a * 10 + (c.toNat - 48)) 0

/-- Unsigned JSON integer literal: either a single 0, or a nonzero digit
followed by digits (JSON forbids leading zeros, so after a leading 0 the
scanner stops, as Python's number regex does). -/
def parseNumeral : List Char → Option (Nat × List Char)
  | [] => none
  | c :: rest =>
    if c = '0' then some (0, rest)
    else if c.isDigit then
      match spanDigits (c :: rest) with
      | (ds, r) => some (digitsVal ds, r)
    else none

/-- JSON number literal with optional leading minus.  Modelled from
Python's `json.loads` scoped to the integer payloads of this application's
schema: fraction and exponent parts are not modelled. -/
def parseNumber (s : List Char) : Option (Int × List Char) :=
  match s with
  | '-' :: rest =>
    match parseNumeral rest with
    | some (n, r) => some (-(n : Int), r)
    | none => none
  | _ =>
    match parseNumeral s with
    | some (n, r) => some ((n : Int), r)
    | none => none

/-- Insertion into a Python dict built during object parsing: an existing
key keeps its position and takes the new value, a new key is appended. -/
def dictInsert : List (List Char × JValue) → List Char → JValue → List (List Char × JValue)
  | [], k, v => [(k, v)]
  | (k', v') :: rest, k, v =>
    if k' = k then (k', v) :: rest else (k', v') :: dictInsert rest k v

/-- Parser request: a value, the members of an object (with the fields
accumulated so far), or the items of an array (with the items so far). -/
inductive PReq where
  | value : PReq
  | members : List (List Char × JValue) → PReq
  | items : List JValue → PReq

/-- Parser answer, matching the three request kinds. -/
inductive PAns where
  | val : JValue → PAns
  | fields : List (List Char × JValue) → PAns
  | elems : List JValue → PAns

/-- Fueled recursive-descent JSON parser modelling Python's strict
`json.loads` grammar: objects with string keys, arrays, strings, integer
numbers, true/false/null; no trailing commas; whitespace allowed between
tokens.  A `value` request skips leading whitespace itself; `members`
expects its input to start at a key with whitespace already skipped. -/
def parseRun : Nat → PReq → List Char → Option (PAns × List Char)
  | 0, _, _ => none
  | fuel + 1, PReq.value, s =>
    match skipWs s with
    | [] => none
    | c :: rest =>
      if c = '\x7b' then
        match skipWs rest with
        | '\x7d' :: r => some (PAns.val (JValue.jobj []), r)
        | s2 =>
          match parseRun fuel (PReq.members []) s2 with
          | some (PAns.fields fs, r) => some (PAns.val (JValue.jobj fs), r)
          | _ => none
      else if c = '[' then
        match skipWs rest with
        | ']' :: r => some (PAns.val (JValue.jarr []), r)
        | s2 =>
          match parseRun fuel (PReq.items []) s2 with
          | some (PAns.elems xs, r) => some (PAns.val (JValue.jarr xs), r)
          | _ => none
      else if c = '"' then
        match parseStringBody rest with
        | some (t, r) => some (PAns.val (JValue.jstr t), r)
        | none => none
      else if c = 't' then
        match rest with
        | 'r' :: 'u' :: 'e' :: r => some (PAns.val (JValue.jbool true), r)
        | _ => none
      else if c = 'f' then
        match rest with
        | 'a' :: 'l' :: 's' :: 'e' :: r => some (PAns.val (JValue.jbool false), r)
        | _ => none
      else if c = 'n' then
        match rest with
        | 'u' :: 'l' :: 'l' :: r => some (PAns.val JValue.jnull, r)
        | _ => none
      else if c = '-' ∨ c.isDigit then
        match parseNumber (c :: rest) with
        | some (n, r) => some (PAns.val (JValue.jnum n), r)
        | none => none
      else none
  | fuel + 1, PReq.members acc, s =>
    match s with
    | '"' :: rest =>
      match parseStringBody rest with
      | some (key, r1) =>
        match skipWs r1 with
        | ':' :: r2 =>
          match parseRun fuel PReq.value r2 with
          | some (PAns.val v, r3) =>
            match skipWs r3 with
            | ',' :: r4 => parseRun fuel (PReq.members (dictInsert acc key v)) (skipWs r4)
            | '\x7d' :: r4 => some (PAns.fields (dictInsert acc key v), r4)
            | _ => none
          | _ => none
        | _ => none
      | none => none
    | _ => none
  | fuel + 1, PReq.items acc, s =>
    match parseRun fuel PReq.value s with
    | some (PAns.val v, r1) =>
      match skipWs r1 with
      | ',' :: r2 => parseRun fuel (PReq.items (acc ++ [v])) r2
      | ']' :: r2 => some (PAns.elems (acc ++ [v]), r2)
      | _ => none
    | _ => none

/-- Modelled from Python's stdlib `json.loads` (the source calls it on the
extracted span): parse one JSON value and require that only whitespace
remains.  The fuel `2 * length + 2` dominates the parser's recursion
depth, which consumes at least one input character per two fuel steps. -/
def jloads (s : List Char) : Option JValue :=
  match parseRun (2 * s.length + 2) PReq.value s with
  | some (PAns.val v, r) => if skipWs r = [] then some v else none
  | _ => none

/-- The prefix of a list up to and including the last occurrence of `ch`,
or `none` when `ch` does not occur. -/
def takeThroughLast (ch : Char) : List Char → Option (List Char)
  | [] => none
  | c :: rest =>
    match takeThroughLast ch rest with
    | some t => some (c :: t)
    | none => if c = ch then some [c] else none

/-- Embedding of `re.search` of the pattern open-brace dot-star
close-brace with `re.DOTALL` (src/app.py line 67), returning the matched
span: the match starts at the first open brace that is followed by a close
brace, and the greedy dot-star extends it through the last close brace of
the input. -/
def reSearchBrace : List Char → Option (List Char)
  | [] => none
  | c :: rest =>
    if c = '\x7b' then
      match takeThroughLast '\x7d' rest with
      | some t => some (c :: t)
      | none => reSearchBrace rest
    else reSearchBrace rest

/-- The five rubric criteria, src/app.py lines 25-31. -/
def QA_CRITERIA : List (List Char) :=
  ["accuracy".toList, "empathy_and_tone".toList, "clarity".toList,
   "actionability".toList, "escalation_awareness".toList]

/-- The constant instruction block, src/app.py lines 33-54 (the dedented,
stripped value of the triple-quoted literal). -/
def SYSTEM_GUIDE : List Char :=
  ("You are a meticulous QA coach for SaaS support agents.\nRead the entire ticket transcript (customer, agent, follow-ups).\nScore the agent responses on the following 5 criteria from 1–5:\n- accuracy\n- empathy_and_tone\n- clarity\n- actionability\n- escalation_awareness\n\nRules:\n- Return ONLY valid JSON. No code fences, no commentary.\n- JSON schema:\n  \x7b\n    \"criteria_scores\": \x7b\"accuracy\": int, \"empathy_and_tone\": int, \"clarity\": int, \"actionability\": int, \"escalation_awareness\": int\x7d,\n    \"overall_score\": int,\n    \"coaching_summary\": \"string with 2-4 crisp, actionable points\",\n    \"suggested_1on1_questions\": [\"short question 1\", \"short question 2\"]\n  \x7d\n- overall_score = sum(criteria)\n- coaching summary should be specific and actionable").toList

/-- The text between the instruction block and the transcript in the
composed prompt (from the f-string on src/app.py lines 58-62). -/
def promptDelim : List Char := "\n\nTICKET TRANSCRIPT:\n".toList

/-- The prompt composition of `evaluate_ticket`, src/app.py lines 58-62:
the f-string interpolating `SYSTEM_GUIDE` and the transcript.  A total
function: composition has no failure case. -/
def buildPrompt (ticket_text : List Char) : List Char :=
  SYSTEM_GUIDE ++ promptDelim ++ ticket_text ++ "\n".toList

/-- Key string for `criteria_scores`. -/
def csKey : List Char := "criteria_scores".toList

/-- Key string for `overall_score`. -/
def osKey : List Char := "overall_score".toList

/-- First-match lookup in an association list (Python dict lookup; keys
produced by `dictInsert` are distinct, so first match is the match). -/
def lookupField : List (List Char × JValue) → List Char → Option JValue
  | [], _ => none
  | (k', v) :: rest, k => if k' = k then some v else lookupField rest k

/-- Key lookup on a JSON value: Python's `key in data` / `data[key]` on a
dict.  In the pipeline this is only ever applied to objects, because a
span returned by `reSearchBrace` starts with an open brace and therefore
parses to an object when it parses at all. -/
def getJ : JValue → List Char → Option JValue
  | JValue.jobj fields, k => lookupField fields k
  | _, _ => none

/-- The `.keys()` view of a JSON value: defined for objects; `none` models
the AttributeError Python raises for `.keys()` on a non-dict. -/
def jkeys : JValue → Option (List (List Char))
  | JValue.jobj fields => some (fields.map Prod.fst)
  | _ => none

/-- Python set equality `set(xs) == set(ys)` on key lists. -/
def sameKeySet (xs ys : List (List Char)) : Bool :=
  xs.all (fun k => decide (k ∈ ys)) && ys.all (fun k => decide (k ∈ xs))

/-- The failure kinds of the evaluation pipeline (spec section 7).  The
source raises ValueError for the first three taxonomy kinds;
`attributeError` models the AttributeError from calling `.keys()` on a
non-dict `criteria_scores` value. -/
inductive EvalError where
  | noJson : List Char → EvalError
  | malformedJson : EvalError
  | missingKeys : JValue → EvalError
  | criteriaMismatch : EvalError
  | attributeError : EvalError

/-- The validation of `evaluate_ticket`, src/app.py lines 72-77: require
both top-level keys, then require the key set of `criteria_scores` to
equal the rubric set; on success return the parsed data unchanged. -/
def validateData (data : JValue) : Except EvalError JValue :=
  match getJ data csKey, getJ data osKey with
  | some cv, some _ =>
    match jkeys cv with
    | some ks =>
      if sameKeySet ks QA_CRITERIA then Except.ok data
      else Except.error EvalError.criteriaMismatch
    | none => Except.error EvalError.attributeError
  | _, _ => Except.error (EvalError.missingKeys data)

/-- The fixed text preceding the raw output in the NoJsonFound message,
src/app.py line 69. -/
def noJsonHeader : List Char := "Model did not return JSON.\nRaw output:\n".toList

/-- Parse-and-validate stage applied to the extracted span, src/app.py
lines 70-77. -/
def jsonStage (span : List Char) : Except EvalError JValue :=
  match jloads span with
  | none => Except.error EvalError.malformedJson
  | some data => validateData data

/-- Response handling of `evaluate_ticket`, src/app.py lines 64-77, as a
function of the raw model completion (the outbound model call itself is
external I/O): extract the brace span, parse it, validate it. -/
def evaluate_ticket (raw : List Char) : Except EvalError JValue :=
  match reSearchBrace raw with
  | none => Except.error (EvalError.noJson (noJsonHeader ++ raw))
  | some span => jsonStage span

/-- ROI estimator, src/app.py line 133. -/
def weekly_hours (managers hrs_saved_per_mgr : Int) : Int :=
  managers * hrs_saved_per_mgr

/-- ROI estimator, src/app.py line 134. -/
def weekly_savings (wh hourly_cost : Int) : Int :=
  wh * hourly_cost

lemma takeThroughLast_eq_none (ch : Char) :
    ∀ l : List Char, takeThroughLast ch l = none ↔ ch ∉ l := by
  intro l
  induction l with
  | nil => simp [takeThroughLast]
  | cons c rest ih =>
    cases h : takeThroughLast ch rest with
    | none =>
      have hr : ch ∉ rest := ih.mp h
      by_cases hc : c = ch
      · subst hc
        simp [takeThroughLast, h]
      · have hc' : ch ≠ c := fun e => hc e.symm
        simp [takeThroughLast, h, hc, hc', hr]
    | some t =>
      have hr : ch ∈ rest := by
        by_contra hn
        rw [ih.mpr hn] at h
        cases h
      simp [takeThroughLast, h, hr]

lemma takeThroughLast_spec (ch : Char) :
    ∀ l t : List Char, takeThroughLast ch l = some t →
      ∃ b c2, t = b ++ [ch] ∧ l = t ++ c2 ∧ ch ∉ c2 := by
  intro l
  induction l with
  | nil => intro t h; simp [takeThroughLast] at h
  | cons c rest ih =>
    intro t h
    cases hr : takeThroughLast ch rest with
    | some t' =>
      simp only [takeThroughLast, hr] at h
      obtain ⟨b, c2, hb, hl, hc⟩ := ih t' hr
      have ht : t = c :: t' := by injection h with h'; exact h'.symm
      subst ht
      refine ⟨c :: b, c2, ?_, ?_, hc⟩
      · rw [hb]; rfl
      · rw [hl]; rfl
    | none =>
      simp only [takeThroughLast, hr] at h
      by_cases hc : c = ch
      · subst hc
        rw [if_pos rfl] at h
        have ht : t = [c] := by injection h with h'; exact h'.symm
        have hrest : c ∉ rest := (takeThroughLast_eq_none c rest).mp hr
        exact ⟨[], rest, by simp [ht], by simp [ht], hrest⟩
      · rw [if_neg hc] at h
        cases h

lemma reSearchBrace_eq_none_of_no_open :
    ∀ s : List Char, '\x7b' ∉ s → reSearchBrace s = none := by
  intro s
  induction s with
  | nil => intro _; rfl
  | cons c rest ih =>
    intro h
    have hc : ¬ (c = '\x7b') := fun e => h (e ▸ List.mem_cons_self c rest)
    have hr : '\x7b' ∉ rest := fun e => h (List.mem_cons_of_mem c e)
    simp [reSearchBrace, hc, ih hr]

lemma reSearchBrace_eq_none_of_no_close :
    ∀ s : List Char, '\x7d' ∉ s → reSearchBrace s = none := by
  intro s
  induction s with
  | nil => intro _; rfl
  | cons c rest ih =>
    intro h
    have hr : '\x7d' ∉ rest := fun e => h (List.mem_cons_of_mem c e)
    by_cases hc : c = '\x7b'
    · have hn : takeThroughLast '\x7d' rest = none :=
        (takeThroughLast_eq_none '\x7d' rest).mpr hr
      simp [reSearchBrace, hc, hn, ih hr]
    · simp [reSearchBrace, hc, ih hr]

lemma reSearchBrace_some_spec :
    ∀ s t : List Char, reSearchBrace s = some t →
      ∃ a b c2, s = a ++ t ++ c2 ∧ t = '\x7b' :: (b ++ ['\x7d']) ∧
        '\x7b' ∉ a ∧ '\x7d' ∉ c2 := by
  intro s
  induction s with
  | nil => intro t h; cases h
  | cons c rest ih =>
    intro t h
    by_cases hc : c = '\x7b'
    · subst hc
      cases hr : takeThroughLast '\x7d' rest with
      | some t' =>
        simp only [reSearchBrace, hr, if_pos, if_true] at h
        obtain ⟨b, c2, hb, hl, hnc⟩ := takeThroughLast_spec '\x7d' rest t' hr
        have ht : t = '\x7b' :: t' := by
          simp only [Option.some.injEq] at h
          exact h.symm
        subst ht
        refine ⟨[], b, c2, ?_, ?_, by simp, hnc⟩
        · rw [hl]; rfl
        · rw [hb]
      | none =>
        simp only [reSearchBrace, hr, if_pos, if_true] at h
        have hclose : '\x7d' ∉ rest := (takeThroughLast_eq_none '\x7d' rest).mp hr
        rw [reSearchBrace_eq_none_of_no_close rest hclose] at h
        cases h
    · simp only [reSearchBrace, if_neg hc] at h
      obtain ⟨a, b, c2, hs, ht, hna, hnc⟩ := ih t h
      refine ⟨c :: a, b, c2, ?_, ht, ?_, hnc⟩
      · rw [List.cons_append, List.cons_append, ← hs]
      · intro hm
        rcases List.mem_cons.mp hm with he | ha
        · exact hc he.symm
        · exact hna ha

lemma reSearchBrace_isSome_of_decomp :
    ∀ a b c2 : List Char,
      (reSearchBrace (a ++ '\x7b' :: (b ++ '\x7d' :: c2))).isSome = true := by
  intro a
  induction a with
  | nil =>
    intro b c2
    have hmem : '\x7d' ∈ b ++ '\x7d' :: c2 :=
      List.mem_append_right b (List.mem_cons_self _ _)
    cases hr : takeThroughLast '\x7d' (b ++ '\x7d' :: c2) with
    | none =>
      exact absurd ((takeThroughLast_eq_none _ _).mp hr) (by simp [hmem])
    | some t =>
      simp [reSearchBrace, hr]
  | cons x a' ih =>
    intro b c2
    by_cases hx : x = '\x7b'
    · subst hx
      have hmem : '\x7d' ∈ a' ++ '\x7b' :: (b ++ '\x7d' :: c2) := by
        refine List.mem_append_right a' ?_
        exact List.mem_cons_of_mem _ (List.mem_append_right b (List.mem_cons_self _ _))
      cases hr : takeThroughLast '\x7d' (a' ++ '\x7b' :: (b ++ '\x7d' :: c2)) with
      | none =>
        exact absurd ((takeThroughLast_eq_none _ _).mp hr) (by simp [hmem])
      | some t =>
        simp [reSearchBrace, hr]
    · simpa [reSearchBrace, hx] using ih b c2

lemma sameKeySet_iff (xs ys : List (List Char)) :
    sameKeySet xs ys = true ↔ (∀ k, k ∈ xs ↔ k ∈ ys) := by
  simp only [sameKeySet, Bool.and_eq_true, List.all_eq_true, decide_eq_true_eq]
  constructor
  · rintro ⟨h1, h2⟩ k
    exact ⟨fun hk => h1 k hk, fun hk => h2 k hk⟩
  · intro h
    exact ⟨fun k hk => (h k).mp hk, fun k hk => (h k).mpr hk⟩

/-- C1: whenever the regex search on the raw response succeeds, the
extracted span runs exactly from the leftmost open brace of the response
through its rightmost close brace (no open brace occurs before the span,
no close brace after it, and the span is brace-delimited), and
`evaluate_ticket` passes exactly this span to the parse-and-validate
stage. -/
theorem extracted_span_first_open_to_last_close (raw span : List Char)
    (h : reSearchBrace raw = some span) :
    (∃ a b c, raw = a ++ span ++ c ∧ span = '\x7b' :: (b ++ ['\x7d']) ∧
      '\x7b' ∉ a ∧ '\x7d' ∉ c)
    ∧ evaluate_ticket raw = jsonStage span :=
  ⟨reSearchBrace_some_spec raw span h, by simp [evaluate_ticket, h]⟩

def w1raw : List Char := "ok \x7bx\x7d y\x7d z".toList

def w1span : List Char := "\x7bx\x7d y\x7d".toList

/-- Witness for C1 at a concrete response with several braces. -/
theorem extracted_span_first_open_to_last_close_witness :
    reSearchBrace w1raw = some w1span ∧
    ((∃ a b c, w1raw = a ++ w1span ++ c ∧ w1span = '\x7b' :: (b ++ ['\x7d']) ∧
      '\x7b' ∉ a ∧ '\x7d' ∉ c)
    ∧ evaluate_ticket w1raw = jsonStage w1span) :=
  ⟨rfl, extracted_span_first_open_to_last_close w1raw w1span rfl⟩

/-- C10: extraction succeeds exactly when some open brace occurs strictly
before some close brace in the raw response; in particular the response
consisting of a close brace, text, then an open brace raises the
NoJsonFound error even though both brace characters are present. -/
theorem extraction_iff_open_before_close :
    (∀ raw : List Char,
      (reSearchBrace raw).isSome = true ↔
        ∃ a b c, raw = a ++ '\x7b' :: (b ++ '\x7d' :: c))
    ∧ evaluate_ticket ("\x7d text \x7b".toList)
        = Except.error (EvalError.noJson (noJsonHeader ++ "\x7d text \x7b".toList)) := by
  constructor
  · intro raw
    constructor
    · intro hs
      obtain ⟨t, ht⟩ := Option.isSome_iff_exists.mp hs
      obtain ⟨a, b, c, hraw, hspan, _, _⟩ := reSearchBrace_some_spec raw t ht
      refine ⟨a, b, c, ?_⟩
      rw [hraw, hspan]
      simp
    · rintro ⟨a, b, c, rfl⟩
      exact reSearchBrace_isSome_of_decomp a b c
  · rfl

/-- C3: a raw response containing no brace of either kind fails with the
NoJsonFound error, and the raised message contains the raw response
verbatim (it is the fixed message text followed by the response). -/
theorem no_braces_noJsonFound (raw : List Char)
    (h1 : '\x7b' ∉ raw) (h2 : '\x7d' ∉ raw) :
    evaluate_ticket raw = Except.error (EvalError.noJson (noJsonHeader ++ raw))
    ∧ List.IsInfix raw (noJsonHeader ++ raw) := by
  constructor
  · simp [evaluate_ticket, reSearchBrace_eq_none_of_no_open raw h1]
  · exact ⟨noJsonHeader, [], by simp⟩

def w3raw : List Char := "The agent resolved the issue politely.".toList

/-- Witness for C3 at a brace-free concrete response. -/
theorem no_braces_noJsonFound_witness :
    ('\x7b' ∉ w3raw) ∧ ('\x7d' ∉ w3raw) ∧
    (evaluate_ticket w3raw = Except.error (EvalError.noJson (noJsonHeader ++ w3raw))
      ∧ List.IsInfix w3raw (noJsonHeader ++ w3raw)) :=
  ⟨by decide, by decide, no_braces_noJsonFound w3raw (by decide) (by decide)⟩

/-- C8: for every transcript, the composed prompt is the constant
instruction block, then the delimiter, then the transcript verbatim
(followed only by the trailing newline of the f-string); in particular the
transcript occurs unmodified as a contiguous substring.  `buildPrompt` is
a total function: composition has no failure case. -/
theorem build_prompt_structure (t : List Char) :
    buildPrompt t = (SYSTEM_GUIDE ++ promptDelim) ++ (t ++ "\n".toList)
    ∧ List.IsInfix t (buildPrompt t) := by
  constructor
  · simp [buildPrompt, List.append_assoc]
  · exact ⟨SYSTEM_GUIDE ++ promptDelim, "\n".toList, by simp [buildPrompt, List.append_assoc]⟩

/-- C9: within the documented input ranges the ROI estimator computes
weekly hours as managers times hours saved and weekly savings as weekly
hours times hourly cost; in particular 10 managers, 4 hours saved and 70
hourly cost give 40 weekly hours and 2800 weekly savings. -/
theorem roi_formulas (managers hrs_saved hourly_cost : Int)
    (h1 : 1 ≤ managers) (h2 : managers ≤ 500) (h3 : 1 ≤ hrs_saved)
    (h4 : hrs_saved ≤ 20) (h5 : 20 ≤ hourly_cost) (h6 : hourly_cost ≤ 300) :
    (weekly_hours managers hrs_saved = managers * hrs_saved
      ∧ weekly_savings (weekly_hours managers hrs_saved) hourly_cost
          = managers * hrs_saved * hourly_cost)
    ∧ (weekly_hours 10 4 = 40 ∧ weekly_savings (weekly_hours 10 4) 70 = 2800) :=
  ⟨⟨rfl, rfl⟩, ⟨by decide, by decide⟩⟩

/-- Witness for C9 at the spec's scenario. -/
theorem roi_formulas_witness :
    ((1 : Int) ≤ 10) ∧ ((10 : Int) ≤ 500) ∧ ((1 : Int) ≤ 4) ∧ ((4 : Int) ≤ 20)
    ∧ ((20 : Int) ≤ 70) ∧ ((70 : Int) ≤ 300)
    ∧ ((weekly_hours 10 4 = 10 * 4
        ∧ weekly_savings (weekly_hours 10 4) 70 = 10 * 4 * 70)
      ∧ (weekly_hours 10 4 = 40 ∧ weekly_savings (weekly_hours 10 4) 70 = 2800)) :=
  ⟨by decide, by decide, by decide, by decide, by decide, by decide,
    roi_formulas 10 4 70 (by decide) (by decide) (by decide) (by decide)
      (by decide) (by decide)⟩

def rawRoundTrip : List Char :=
  ("Sure! \x7b\"criteria_scores\":\x7b\"accuracy\":4,\"empathy_and_tone\":3,\"clarity\":5,\"actionability\":4,\"escalation_awareness\":2\x7d,\"overall_score\":18,\"coaching_summary\":\"Be more proactive about escalation.\",\"suggested_1on1_questions\":[\"What blocked escalation?\"]\x7d Hope this helps!").toList

def resRoundTrip : JValue :=
  JValue.jobj
    [(csKey, JValue.jobj
        [("accuracy".toList, JValue.jnum 4),
         ("empathy_and_tone".toList, JValue.jnum 3),
         ("clarity".toList, JValue.jnum 5),
         ("actionability".toList, JValue.jnum 4),
         ("escalation_awareness".toList, JValue.jnum 2)]),
     (osKey, JValue.jnum 18),
     ("coaching_summary".toList, JValue.jstr "Be more proactive about escalation.".toList),
     ("suggested_1on1_questions".toList,
       JValue.jarr [JValue.jstr "What blocked escalation?".toList])]

set_option maxRecDepth 200000 in
/-- C2: on the spec's round-trip response, evaluation succeeds and returns
exactly the embedded object: the five criterion scores as given, overall
score 18, and the single suggested question, with the surrounding prose
ignored. -/
theorem evaluate_round_trip :
    evaluate_ticket rawRoundTrip = Except.ok resRoundTrip := rfl

def rawTruncated : List Char :=
  ("\x7b\"criteria_scores\": \x7b\"accuracy\":5,").toList

set_option maxRecDepth 200000 in
/-- C4 counterexample: on exactly the truncated response of the claim,
which contains no close brace at all, evaluation fails with the
NoJsonFound error, not with MalformedJson. -/
theorem truncated_without_close_is_noJsonFound :
    evaluate_ticket rawTruncated
      = Except.error (EvalError.noJson (noJsonHeader ++ rawTruncated))
    ∧ evaluate_ticket rawTruncated ≠ Except.error EvalError.malformedJson := by
  have h1 : evaluate_ticket rawTruncated
      = Except.error (EvalError.noJson (noJsonHeader ++ rawTruncated)) := rfl
  refine ⟨h1, ?_⟩
  rw [h1]
  intro hc
  injection hc with h2
  exact EvalError.noConfusion h2

def rawTruncatedTail : List Char :=
  ("\x7b\"criteria_scores\": \x7b\"accuracy\":5, Hope this helps\x7d").toList

set_option maxRecDepth 200000 in
/-- C4 amended: a truncated JSON response fails with MalformedJson when
the response still contains a close brace after its first open brace, so
that the greedy extraction succeeds and the long span fails to parse;
here, the truncated object followed by trailing prose and a stray close
brace. -/
theorem truncated_with_close_is_malformedJson :
    evaluate_ticket rawTruncatedTail = Except.error EvalError.malformedJson := rfl

/-- C5: for a parsed object carrying both required keys (with
`criteria_scores` itself an object, so that its key set is defined),
validation succeeds exactly when the key set of `criteria_scores` equals
the rubric set, order-independent with no extra or missing keys; when the
key sets differ it fails with CriteriaMismatch; and on success the
returned result's `criteria_scores` keys equal the rubric set. -/
theorem criteria_keyset_validation
    (fields m : List (List Char × JValue))
    (hcs : lookupField fields csKey = some (JValue.jobj m))
    (hos : (lookupField fields osKey).isSome = true) :
    ((∃ v, validateData (JValue.jobj fields) = Except.ok v)
        ↔ (∀ k, k ∈ m.map Prod.fst ↔ k ∈ QA_CRITERIA))
    ∧ (¬ (∀ k, k ∈ m.map Prod.fst ↔ k ∈ QA_CRITERIA) →
        validateData (JValue.jobj fields) = Except.error EvalError.criteriaMismatch)
    ∧ (∀ v, validateData (JValue.jobj fields) = Except.ok v →
        ∃ m2, getJ v csKey = some (JValue.jobj m2)
          ∧ (∀ k, k ∈ m2.map Prod.fst ↔ k ∈ QA_CRITERIA)) := by
  obtain ⟨w, hw⟩ := Option.isSome_iff_exists.mp hos
  cases hsk : sameKeySet (m.map Prod.fst) QA_CRITERIA with
  | true =>
    have hkeys : ∀ k, k ∈ m.map Prod.fst ↔ k ∈ QA_CRITERIA :=
      (sameKeySet_iff _ _).mp hsk
    have hval : validateData (JValue.jobj fields) = Except.ok (JValue.jobj fields) := by
      simp [validateData, getJ, hcs, hw, jkeys, hsk]
    refine ⟨⟨fun _ => hkeys, fun _ => ⟨_, hval⟩⟩, fun hn => absurd hkeys hn, ?_⟩
    intro v hv
    rw [hval] at hv
    have hveq : JValue.jobj fields = v := by injection hv
    subst hveq
    exact ⟨m, by simpa [getJ] using hcs, hkeys⟩
  | false =>
    have hkeys : ¬ ∀ k, k ∈ m.map Prod.fst ↔ k ∈ QA_CRITERIA := by
      intro hall
      rw [(sameKeySet_iff _ _).mpr hall] at hsk
      cases hsk
    have hval : validateData (JValue.jobj fields)
        = Except.error EvalError.criteriaMismatch := by
      simp [validateData, getJ, hcs, hw, jkeys, hsk]
    refine ⟨⟨?_, fun hall => absurd hall hkeys⟩, fun _ => hval, ?_⟩
    · rintro ⟨v, hv⟩
      rw [hval] at hv
      cases hv
    · intro v hv
      rw [hval] at hv
      cases hv

def w5criteria : List (List Char × JValue) :=
  [("accuracy".toList, JValue.jnum 4),
   ("empathy_and_tone".toList, JValue.jnum 3),
   ("clarity".toList, JValue.jnum 5),
   ("actionability".toList, JValue.jnum 4),
   ("escalation_awareness".toList, JValue.jnum 2)]

def w5fields : List (List Char × JValue) :=
  [(csKey, JValue.jobj w5criteria), (osKey, JValue.jnum 18)]

/-- Witness for C5 at a concrete parsed object with the five rubric
keys. -/
theorem criteria_keyset_validation_witness :
    lookupField w5fields csKey = some (JValue.jobj w5criteria)
    ∧ (lookupField w5fields osKey).isSome = true
    ∧ (((∃ v, validateData (JValue.jobj w5fields) = Except.ok v)
        ↔ (∀ k, k ∈ w5criteria.map Prod.fst ↔ k ∈ QA_CRITERIA))
      ∧ (¬ (∀ k, k ∈ w5criteria.map Prod.fst ↔ k ∈ QA_CRITERIA) →
          validateData (JValue.jobj w5fields) = Except.error EvalError.criteriaMismatch)
      ∧ (∀ v, validateData (JValue.jobj w5fields) = Except.ok v →
          ∃ m2, getJ v csKey = some (JValue.jobj m2)
            ∧ (∀ k, k ∈ m2.map Prod.fst ↔ k ∈ QA_CRITERIA))) :=
  ⟨rfl, rfl, criteria_keyset_validation w5fields w5criteria rfl rfl⟩

/-- C6: a parsed object with `criteria_scores` present but `overall_score`
absent, or the other way round, fails with the MissingKeys error,
whatever the value under the present key is — so no criterion-set
comparison influences the outcome. -/
theorem missing_key_gives_missingKeys (fields : List (List Char × JValue))
    (h : ((lookupField fields csKey).isSome = true ∧ lookupField fields osKey = none)
       ∨ (lookupField fields csKey = none ∧ (lookupField fields osKey).isSome = true)) :
    validateData (JValue.jobj fields)
      = Except.error (EvalError.missingKeys (JValue.jobj fields)) := by
  rcases h with ⟨h1, h2⟩ | ⟨h1, h2⟩
  · obtain ⟨cv, hcv⟩ := Option.isSome_iff_exists.mp h1
    simp [validateData, getJ, hcv, h2]
  · obtain ⟨ov, hov⟩ := Option.isSome_iff_exists.mp h2
    simp [validateData, getJ, h1, hov]

def w6fields : List (List Char × JValue) := [(csKey, JValue.jnum 7)]

/-- Witness for C6: `criteria_scores` present (with a non-dict value, so
any later criterion inspection could not even run), `overall_score`
absent. -/
theorem missing_key_gives_missingKeys_witness :
    (((lookupField w6fields csKey).isSome = true ∧ lookupField w6fields osKey = none)
      ∨ (lookupField w6fields csKey = none ∧ (lookupField w6fields osKey).isSome = true))
    ∧ validateData (JValue.jobj w6fields)
        = Except.error (EvalError.missingKeys (JValue.jobj w6fields)) :=
  ⟨Or.inl ⟨rfl, rfl⟩, missing_key_gives_missingKeys w6fields (Or.inl ⟨rfl, rfl⟩)⟩

/-- C7: when both required keys are present and the `criteria_scores` key
set equals the rubric set, validation returns the parsed object entirely
unchanged, whatever the `overall_score` value is (it is not recomputed),
whatever the nested criterion values are, and whatever other fields the
object carries — nothing else is validated. -/
theorem validation_checks_nothing_else
    (fields m : List (List Char × JValue)) (w : JValue)
    (hcs : lookupField fields csKey = some (JValue.jobj m))
    (hos : lookupField fields osKey = some w)
    (hk : ∀ k, k ∈ m.map Prod.fst ↔ k ∈ QA_CRITERIA) :
    validateData (JValue.jobj fields) = Except.ok (JValue.jobj fields) := by
  have hsk := (sameKeySet_iff (m.map Prod.fst) QA_CRITERIA).mpr hk
  simp [validateData, getJ, hcs, hos, jkeys, hsk]

def w7criteria : List (List Char × JValue) :=
  [("accuracy".toList, JValue.jnum 9),
   ("empathy_and_tone".toList, JValue.jstr "high".toList),
   ("clarity".toList, JValue.jnum 5),
   ("actionability".toList, JValue.jnum 4),
   ("escalation_awareness".toList, JValue.jnum 2)]

def w7fields : List (List Char × JValue) :=
  [(csKey, JValue.jobj w7criteria),
   (osKey, JValue.jnum 99),
   ("suggested_1on1_questions".toList, JValue.jstr "not a list".toList),
   ("extra_field".toList, JValue.jnull)]

/-- Witness for C7: overall score 99 does not equal the score sum, one
score is out of range, one is a string, the questions field is a scalar
and an extra field is present — the object is still accepted unchanged. -/
theorem validation_checks_nothing_else_witness :
    lookupField w7fields csKey = some (JValue.jobj w7criteria)
    ∧ lookupField w7fields osKey = some (JValue.jnum 99)
    ∧ (∀ k, k ∈ w7criteria.map Prod.fst ↔ k ∈ QA_CRITERIA)
    ∧ validateData (JValue.jobj w7fields) = Except.ok (JValue.jobj w7fields) :=
  ⟨rfl, rfl, (sameKeySet_iff _ _).mp rfl,
    validation_checks_nothing_else w7fields w7criteria (JValue.jnum 99) rfl rfl
      ((sameKeySet_iff _ _).mp rfl)⟩
